import Mathlib

/-!
Verification development for the eleventy-img derivation pipeline
(`img.js`, the evolved module of this repository).

The JavaScript module is shallowly embedded: plain functions become Lean
functions, JS numbers used as integral pixel widths become `Int`, byte
buffers and file contents become `String`, JS objects whose key order
matters become ordered association lists `List (String × String)`, and
fallible code returns `Except String`.  The external collaborators (the
sharp codec engine, the filesystem, brotli-size, eleventy-fetch) are
modelled as explicit environment records of pure functions, and the
cryptographic sha256+base64 digest is an abstract `String → String`
parameter, so every theorem holds for an arbitrary digest.

`Array.prototype.sort` (guaranteed stable since ES2019, and eleventy-img
requires a Node version whose V8 sort is stable) applied with a
consistent comparator is modelled by `List.insertionSort` with the
preorder `comparator(a,b) <= 0`, which is the unique stable sort for
that preorder.
-/

namespace EImg

/-- `String.take` by code points, kernel-computable (models `str.slice(0, n)`
on the BMP strings appearing here). -/
def strTake (s : String) (n : Nat) : String := String.mk (s.data.take n)

/-- `String.trim`, kernel-computable (models `str.trim()`). -/
def strTrim (s : String) : String :=
  String.mk (((s.data.dropWhile Char.isWhitespace).reverse.dropWhile Char.isWhitespace).reverse)

/-- Models `str.replace(/\r|\n/g, '')`. -/
def stripCRLF (s : String) : String :=
  String.mk (s.data.filter (fun c => c ≠ '\r' ∧ c ≠ '\n'))

/-- Models `path.join(a, b)` for the common cases used by the module
(no `..` or duplicated separators in play). -/
def pathJoin (a b : String) : String :=
  if a = "" then b
  else if a.data.getLast? = some '/' then a ++ b
  else a ++ "/" ++ b

/-- Worker for `dedupFirst`; `seen` is the membership set of the JS `Set`. -/
def dedupFirstAux [DecidableEq α] : List α → List α → List α
  | _, [] => []
  | seen, a :: as =>
    if a ∈ seen then dedupFirstAux seen as
    else a :: dedupFirstAux (a :: seen) as

/-- Models `[...new Set(xs)]`: removes duplicates keeping first occurrences. -/
def dedupFirst [DecidableEq α] (l : List α) : List α := dedupFirstAux [] l

/-- `Math.floor(w * t)` for an integral `w` and rational `t`
(`Int.fdiv` is floor division and `t.den` is positive). -/
def ratFloorMul (w : Int) (t : Rat) : Int := Int.fdiv (w * t.num) (t.den : Int)

/-- The three recognized values of the `svgShortCircuit` option:
`false`, `true` and `"size"`. -/
inductive SvgMode where
  | off
  | strict
  | size
deriving DecidableEq, Repr

/-- The `FORMAT_ALIASES` table. -/
def FORMAT_ALIASES (f : String) : Option String :=
  if f = "jpg" then some "jpeg"
  else if f = "svg+xml" then some "svg"
  else none

/-- The `MIME_TYPES` table (`none` models an absent key / `undefined`). -/
def MIME_TYPES : String → Option String
  | "jpeg" => some "image/jpeg"
  | "webp" => some "image/webp"
  | "png" => some "image/png"
  | "svg" => some "image/svg+xml"
  | "avif" => some "image/avif"
  | "gif" => some "image/gif"
  | _ => none

/-! ## Width policy: `Image.getValidWidths` -/

/-- The stateful `.map` callback of `getValidWidths` (the upscale pass):
`lastWidthWasBigEnough` starts `true`, an over-large width is replaced by
the original width when the flag is set and by `-1` otherwise, and an
accepted width updates the flag to
`originalWidth > Math.floor(width * minimumThreshold)`. -/
def widthsReducer (originalWidth : Int) (minimumThreshold : Rat) :
    Bool → List Int → List Int
  | _, [] => []
  | lastWidthWasBigEnough, w :: rest =>
    if w > originalWidth then
      (if lastWidthWasBigEnough then originalWidth else (-1 : Int))
        :: widthsReducer originalWidth minimumThreshold lastWidthWasBigEnough rest
    else
      w :: widthsReducer originalWidth minimumThreshold
        (decide (originalWidth > ratFloorMul w minimumThreshold)) rest

/-- `Image.getValidWidths(originalWidth, widths, allowUpscale, minimumThreshold)`.
A width entry `none` models the falsy/`'auto'` entries (and `some 0` the
falsy number `0`); integral entries are already numbers, so the
`parseInt` pass is the identity on them. -/
def getValidWidths (originalWidth : Int) (widths : List (Option Int))
    (allowUpscale : Bool) (minimumThreshold : Rat) : List Int :=
  let valid := widths.map (fun w =>
    match w with
    | none => originalWidth
    | some n => if n = 0 then originalWidth else n)
  let valid :=
    if !allowUpscale then
      (widthsReducer originalWidth minimumThreshold true
        (List.insertionSort (fun a b : Int => a ≤ b) valid)).filter (fun w => w > 0)
    else valid
  List.insertionSort (fun a b : Int => a ≤ b) (dedupFirst valid)

/-! ## Format policy: `Image.getFormatsArray` -/

/-- The `.map` callback of `getFormatsArray`: substitute `"auto"`/falsy
entries with the (truthy) `autoFormat`, then apply `FORMAT_ALIASES`. -/
def mapFormat (autoFormat : Option String) (format : String) : String :=
  let format :=
    match autoFormat with
    | some auto => if format = "" ∨ format = "auto" then auto else format
    | none => format
  match FORMAT_ALIASES format with
  | some aliased => aliased
  | none => format

/-- The svg-first comparator of `getFormatsArray` as the preorder
`comparator(a,b) <= 0`: the comparator returns `-1` when `a === "svg"`,
`1` when `b === "svg"` and `0` otherwise. -/
def svgFirst (a b : String) : Prop := a = "svg" ∨ b ≠ "svg"

instance : DecidableRel svgFirst := fun a b => by
  unfold svgFirst; infer_instance

instance : IsTotal String svgFirst where
  total a b := by
    by_cases h : a = "svg"
    · exact Or.inl (Or.inl h)
    · exact Or.inr (Or.inr h)

instance : IsTrans String svgFirst where
  trans a b c hab hbc := by
    rcases hab with h | h
    · exact Or.inl h
    · rcases hbc with h' | h'
      · exact absurd h' h
      · exact Or.inr h'

/-- `Image.getFormatsArray(formats, autoFormat, svgShortCircuit)`.
The string-splitting branch is omitted: callers in this development pass
lists (a comma-separated string input is its split list). -/
def getFormatsArray (formats : List String) (autoFormat : Option String)
    (svgShortCircuit : SvgMode) : List String :=
  if formats.isEmpty then []
  else
    dedupFirst
      (if svgShortCircuit ≠ SvgMode.size then
        List.insertionSort svgFirst (formats.map (mapFormat autoFormat))
      else formats.map (mapFormat autoFormat))

/-! ## Data model -/

/-- Caller-supplied `remoteImageMetadata` (`0` models an absent or falsy
width/height, matching the truthiness tests in `queueImage`). -/
structure RemoteMeta where
  width : Int := 0
  height : Int := 0
  format : Option String := none
deriving DecidableEq, Repr

/-- The merged option record (`Object.assign({}, globalOptions, options)`),
with the `globalOptions` defaults.  Function-valued option slots
(`filenameFormat`, `urlFormat`) carry real Lean functions; `sharpHook`
only transforms the opaque codec handle, so only its presence is kept.
`formatHooks` is the list of format names that carry a hook function
(default: `svg`).  The per-format sharp option objects are ordered
association lists whose values stand for the rendered JSON of the
option value; `none` models a null/undefined override (skipped by the
truthiness test in `getHash`). -/
structure Options where
  widths : List (Option Int) := [none]
  formats : List String := ["webp", "jpeg"]
  concurrency : Nat := 10
  urlPath : String := "/img/"
  outputDir : String := "img/"
  svgShortCircuit : SvgMode := SvgMode.off
  svgAllowUpscale : Bool := true
  svgCompressionSize : String := ""
  sharpOptions : Option (List (String × String)) := some []
  sharpWebpOptions : Option (List (String × String)) := some []
  sharpPngOptions : Option (List (String × String)) := some []
  sharpJpegOptions : Option (List (String × String)) := some []
  sharpAvifOptions : Option (List (String × String)) := some []
  sharpHook : Option Unit := none
  extensions : List (String × String) := []
  formatHooks : List String := ["svg"]
  cacheDuration : String := "1d"
  cacheOptions : List (String × String) := []
  filenameFormat : Option (String → String → Int → String → String) := none
  urlFormat : Option (Option String → String → Int → String → String) := none
  statsOnly : Bool := false
  remoteImageMetadata : RemoteMeta := {}
  useCache : Bool := true
  dryRun : Bool := false
  hashLength : Nat := 10
  fixOrientation : Bool := false
  useCacheValidityInHash : Bool := true
  minimumThreshold : Rat := mkRat 5 4
  overrideInputFormat : Option String := none

/-- The source argument of the `Image` constructor.  A local path carries
`some (contents, byteSize)` when the file exists on disk (the two reads
`fs.readFileSync`/`fs.statSync`), a remote URL carries the
`assetCache.isCacheValid(duration)` flag of its remote-fetch cache
handle, a buffer carries its bytes. -/
inductive Src where
  | localPath (p : String) (onDisk : Option (String × Nat))
  | remoteUrl (u : String) (cacheValid : Bool)
  | buffer (bytes : String)
deriving DecidableEq, Repr

/-- The source value as the string it stringifies to (`src.toString()` for
a buffer). -/
def srcString : Src → String
  | Src.localPath p _ => p
  | Src.remoteUrl u _ => u
  | Src.buffer bytes => bytes

/-- `Image.getFileContents()` — `none` models the literal `false` returned
for remote sources. -/
def getFileContents : Src → Option String
  | Src.localPath _ (some c) => some c.1
  | Src.localPath _ none => none
  | Src.remoteUrl _ _ => none
  | Src.buffer bytes => some bytes

/-- One output artifact descriptor (the mutable `stats` record of
`getStat`, with the `size`/`buffer` slots filled during
materialization; `size = 0` models the not-yet-populated slot). -/
structure Stat where
  format : String
  width : Int
  height : Int
  url : String
  sourceType : Option String
  srcset : String
  size : Nat := 0
  filename : Option String := none
  outputPath : Option String := none
  buffer : Option String := none
deriving DecidableEq, Repr

/-- Stat records grouped by format, in object-key insertion order. -/
abbrev Plan : Type := List (String × List Stat)

/-- All stat records of a plan, in plan order. -/
def allStats (p : Plan) : List Stat := (p.map Prod.snd).flatten

/-! ## Content hashing: `Image.getHash` -/

/-- `Util.getSortedObject` on an association list: re-orders entries by
ascending key (JS object keys are unique, so ties do not arise in
source-faithful inputs; the sort is stable regardless). -/
def getSortedObject (l : List (String × String)) : List (String × String) :=
  List.insertionSort (fun a b : String × String => a.1 ≤ b.1) l

/-- Renders an association list as a JSON object literal (values are
already-rendered JSON). -/
def jsonObjRaw (l : List (String × String)) : String :=
  "\x7b" ++ String.intercalate "," (l.map (fun kv => "\"" ++ kv.1 ++ "\":" ++ kv.2)) ++ "\x7d"

/-- One `keysToKeep` entry of the `hashObject`: present only when the
option value is truthy, and its keys are sorted. -/
def sharpOptionEntry (name : String) : Option (List (String × String)) → List (String × String)
  | none => []
  | some l => [(name, jsonObjRaw (getSortedObject l))]

/-- `JSON.stringify(hashObject)` for the sorted
`keysToKeep = [sharpAvifOptions, sharpJpegOptions, sharpOptions,
sharpPngOptions, sharpWebpOptions]`. -/
def hashObjectJson (o : Options) : String :=
  jsonObjRaw
    (sharpOptionEntry "sharpAvifOptions" o.sharpAvifOptions ++
     sharpOptionEntry "sharpJpegOptions" o.sharpJpegOptions ++
     sharpOptionEntry "sharpOptions" o.sharpOptions ++
     sharpOptionEntry "sharpPngOptions" o.sharpPngOptions ++
     sharpOptionEntry "sharpWebpOptions" o.sharpWebpOptions)

/-- Newline normalization applied to file contents whose trimmed first
five characters are `<svg ` or `<?xml` (Issue #122). -/
def stripNewlinesIfSvg (s : String) : String :=
  let firstFour := strTake (strTrim s) 5
  if firstFour = "<svg " ∨ firstFour = "<?xml" then stripCRLF s else s

/-- The concatenation of all `hash.update(...)` payloads before the
options object: file contents (newline-normalized for SVG/XML) when
`fs.existsSync(src)`, otherwise the source value itself plus, for a
remote URL under `useCacheValidityInHash`, the cache-validity tag. -/
def hashTranscript (src : Src) (o : Options) : String :=
  match src with
  | Src.localPath _ (some c) => stripNewlinesIfSvg c.1
  | Src.localPath p none => p
  | Src.buffer bytes => bytes
  | Src.remoteUrl u valid =>
      u ++ (if o.useCacheValidityInHash then
              "ValidCache:" ++ (if valid then "true" else "false")
            else "")

/-- `base64hash.replace(/=/g,"").replace(/\+/g,"-").replace(/\//g,"_")`. -/
def base64UrlSafe (s : String) : String :=
  String.mk ((s.data.filter (fun c => c ≠ '=')).map
    (fun c => if c = '+' then '-' else if c = '/' then '_' else c))

/-- `Image.getHash()`, with `digest` the abstract sha256+base64 digest of
the external crypto library (the memoized `computedHash` needs no model:
the function is pure). -/
def getHash (digest : String → String) (src : Src) (o : Options) : String :=
  strTake (base64UrlSafe (digest (hashTranscript src o ++ hashObjectJson o))) o.hashLength

/-! ## In-memory de-dup signature: `Image.getInMemoryCacheKey` -/

def jsonOfBool (b : Bool) : String := if b then "true" else "false"

def jsonOfString (s : String) : String := "\"" ++ s ++ "\""

def jsonOfOptInt : Option Int → String
  | none => "null"
  | some n => toString n

def jsonOfWidths (l : List (Option Int)) : String :=
  "[" ++ String.intercalate "," (l.map jsonOfOptInt) ++ "]"

def jsonOfStrList (l : List String) : String :=
  "[" ++ String.intercalate "," (l.map jsonOfString) ++ "]"

def jsonOfSvgMode : SvgMode → String
  | SvgMode.off => "false"
  | SvgMode.strict => "true"
  | SvgMode.size => "\"size\""

def jsonOfSharp : Option (List (String × String)) → String
  | none => "null"
  | some l => jsonObjRaw l

def jsonOfRat (q : Rat) : String := toString q.num ++ "/" ++ toString q.den

/-- `JSON.stringify` of the caller-supplied `remoteImageMetadata` object
(absent fields are omitted). -/
def jsonOfRemoteMeta (m : RemoteMeta) : String :=
  jsonObjRaw
    ((if m.width ≠ 0 then [("width", toString m.width)] else []) ++
     (if m.height ≠ 0 then [("height", toString m.height)] else []) ++
     (match m.format with
      | some f => [("format", jsonOfString f)]
      | none => []))

/-- `JSON.stringify` drops keys whose value is a function, and serializes
a null value as `null`. -/
def functionFieldEntry (name : String) : Option α → List (String × String)
  | none => [(name, "null")]
  | some _ => []

/-- The serialized entries of `Util.getSortedObject(this.options)` in
ascending key order, with `JSON.stringify` semantics: function values
are dropped, `formatHooks` (an object holding only functions) always
serializes to the empty object, and the internal `overrideInputFormat`
key is present only when set. -/
def serializedOptionEntries (o : Options) : List (String × String) :=
  [("cacheDuration", jsonOfString o.cacheDuration),
   ("cacheOptions", jsonObjRaw o.cacheOptions),
   ("concurrency", toString o.concurrency),
   ("dryRun", jsonOfBool o.dryRun),
   ("extensions", jsonObjRaw o.extensions)] ++
  functionFieldEntry "filenameFormat" o.filenameFormat ++
  [("fixOrientation", jsonOfBool o.fixOrientation),
   ("formatHooks", "\x7b\x7d"),
   ("formats", jsonOfStrList o.formats),
   ("hashLength", toString o.hashLength),
   ("minimumThreshold", jsonOfRat o.minimumThreshold),
   ("outputDir", jsonOfString o.outputDir)] ++
  (match o.overrideInputFormat with
   | some s => [("overrideInputFormat", jsonOfString s)]
   | none => []) ++
  [("remoteImageMetadata", jsonOfRemoteMeta o.remoteImageMetadata),
   ("sharpAvifOptions", jsonOfSharp o.sharpAvifOptions)] ++
  functionFieldEntry "sharpHook" o.sharpHook ++
  [("sharpJpegOptions", jsonOfSharp o.sharpJpegOptions),
   ("sharpOptions", jsonOfSharp o.sharpOptions),
   ("sharpPngOptions", jsonOfSharp o.sharpPngOptions),
   ("sharpWebpOptions", jsonOfSharp o.sharpWebpOptions),
   ("statsOnly", jsonOfBool o.statsOnly),
   ("svgAllowUpscale", jsonOfBool o.svgAllowUpscale),
   ("svgCompressionSize", jsonOfString o.svgCompressionSize),
   ("svgShortCircuit", jsonOfSvgMode o.svgShortCircuit)] ++
  functionFieldEntry "urlFormat" o.urlFormat ++
  [("urlPath", jsonOfString o.urlPath),
   ("useCache", jsonOfBool o.useCache),
   ("useCacheValidityInHash", jsonOfBool o.useCacheValidityInHash),
   ("widths", jsonOfWidths o.widths)]

/-- `Image.getInMemoryCacheKey()` as the ordered entry list of the
stringified object (injective in the rendered JSON): the sorted option
entries, then `__originalSrc`, then the source-identity fields appended
per source kind.  `none` models the synchronous `fs.statSync` throw for
a missing local file. -/
def getInMemoryCacheKey (src : Src) (o : Options) : Option (List (String × String)) :=
  let base := serializedOptionEntries o ++ [("__originalSrc", srcString src)]
  match src with
  | Src.remoteUrl u valid =>
      some (base ++ [("sourceUrl", u), ("__validAssetCache", jsonOfBool valid)])
  | Src.buffer bytes =>
      some (base ++ [("sourceUrl", bytes), ("__originalSize", toString bytes.length)])
  | Src.localPath _ (some c) => some (base ++ [("__originalSize", toString c.2)])
  | Src.localPath _ none => none

/-! ## Path/stat assembly: `ImagePath` and `Image.getStat` -/

/-- `ImagePath.filenameFormat(id, src, width, format)` (the `src` argument
is unused by the default pattern; a width of `0` is falsy). -/
def ImagePath.filenameFormat (id : String) (src : String) (width : Int) (format : String) :
    String :=
  if width ≠ 0 then id ++ "-" ++ toString width ++ "." ++ format
  else id ++ "." ++ format

/-- `ImagePath.getFilename`: a configured `filenameFormat` function wins
when its result is truthy (non-empty), else the default pattern.  The
JS hook also receives the options bag; that argument is dropped here
because `Options` cannot contain functions over itself. -/
def ImagePath.getFilename (id : String) (src : String) (width : Int) (format : String)
    (o : Options) : String :=
  match o.filenameFormat with
  | some f =>
      let custom := f id src width format
      if custom ≠ "" then custom else ImagePath.filenameFormat id src width format
  | none => ImagePath.filenameFormat id src width format

/-- `ImagePath.convertFilePathToUrl` (on the forward-slash separator the
split/join is the identity). -/
def ImagePath.convertFilePathToUrl (dir filename : String) : String :=
  pathJoin dir filename

/-- `Image.getStat(outputFormat, width, height)`. -/
def getStat (digest : String → String) (src : Src) (o : Options)
    (outputFormat : String) (width height : Int) : Stat :=
  let outputExtension := (o.extensions.lookup outputFormat).getD outputFormat
  match o.urlFormat with
  | some urlF =>
      let hash := if !o.statsOnly then some (getHash digest src o) else none
      let url := urlF hash (srcString src) width outputExtension
      { format := outputFormat, width := width, height := height, url := url,
        sourceType := MIME_TYPES outputFormat,
        srcset := url ++ " " ++ toString width ++ "w" }
  | none =>
      let hash := getHash digest src o
      let outputFilename := ImagePath.getFilename hash (srcString src) width outputExtension o
      let url := ImagePath.convertFilePathToUrl o.urlPath outputFilename
      { format := outputFormat, width := width, height := height, url := url,
        sourceType := MIME_TYPES outputFormat,
        srcset := url ++ " " ++ toString width ++ "w",
        filename := some outputFilename,
        outputPath := some (pathJoin o.outputDir outputFilename) }

/-! ## Plan assembly: `Image.getFullStats` and `Image._transformRawFiles` -/

/-- The metadata record probed from the source (`0`/`none` model absent
fields). -/
structure Metadata where
  width : Int := 0
  height : Int := 0
  format : Option String := none
  orientation : Nat := 0
  pageHeight : Option Int := none
  size : Nat := 0
deriving DecidableEq, Repr

/-- EXIF orientations 5–8 flip width/height. -/
def needsRotation (orientation : Nat) : Bool :=
  5 ≤ orientation ∧ orientation ≤ 8

/-- Sort a format group ascending by width (the `srcset` sort of
`_transformRawFiles`), stable like the JS sort. -/
def sortByWidth (l : List Stat) : List Stat :=
  List.insertionSort (fun a b : Stat => a.width ≤ b.width) l

/-- The group stored at key `k` of `byType` before the size filter:
the files of that format in arrival order, sorted by width. -/
def groupFor (files : List Stat) (k : String) : List Stat :=
  sortByWidth (files.filter (fun f => f.format = k))

/-- The key set of `byType` in insertion order: first the truthy non-auto
formats, then the formats of files not already present. -/
def transformKeys (formats : List String) (files : List Stat) : List String :=
  let keys0 := dedupFirst (formats.filter (fun f => f ≠ "" ∧ f ≠ "auto"))
  files.foldl (fun ks f => if f.format ∈ ks then ks else ks ++ [f.format]) keys0

/-- The stateful map+filter of the `svgShortCircuit === "size"` pass on one
raster group: an entry larger than the SVG size is replaced by the SVG
entry when it is the first such offender and a smaller entry was already
kept (`originalFormatKept`), and dropped otherwise. -/
def sizeFilterGroup (svgEntry : Stat) (svgSize : Nat) :
    Bool → Bool → List Stat → List Stat
  | _, _, [] => []
  | svgAdded, originalFormatKept, entry :: rest =>
    if entry.size > svgSize then
      if !svgAdded then
        if originalFormatKept then
          svgEntry :: sizeFilterGroup svgEntry svgSize true originalFormatKept rest
        else sizeFilterGroup svgEntry svgSize true originalFormatKept rest
      else sizeFilterGroup svgEntry svgSize svgAdded originalFormatKept rest
    else entry :: sizeFilterGroup svgEntry svgSize svgAdded true rest

/-- The amended claim C2's description of the `"size"` pass on one
width-sorted raster group, written from the spec side for comparison
with `sizeFilterGroup`: keep the prefix of rasters no larger than the
SVG; at the first offending slot substitute the SVG entry — but only
when that kept prefix is nonempty, i.e. a smaller raster was already
kept — and of the remaining rasters keep exactly those no larger than
the SVG (every later offender is dropped). -/
def sizeFilterSpec (sv : Stat) (sz : Nat) (l : List Stat) : List Stat :=
  l.takeWhile (fun e => e.size ≤ sz) ++
    match l.dropWhile (fun e => e.size ≤ sz) with
    | [] => []
    | _ :: post =>
        (if l.takeWhile (fun e => e.size ≤ sz) = [] then [] else [sv]) ++
          post.filter (fun e => e.size ≤ sz)

/-- `svgEntry && svgEntry.length && svgEntry[0].size`: the size of the
first svg stat, `0` when the group is missing/empty or its head has no
size (all the falsy cases that disable the filter). -/
def svgSizeOf : List Stat → Nat
  | s :: _ => s.size
  | [] => 0

/-- `svgEntry[0]` (only read under a non-zero `svgSizeOf`, so the empty
case is never consulted). -/
def headStat : List Stat → Stat
  | s :: _ => s
  | [] => { format := "", width := 0, height := 0, url := "", sourceType := none, srcset := "" }

/-- `Image._transformRawFiles(files, formats)`.  The group at key `svg`
is `groupFor files "svg"` by construction, so the `svgEntry`/`svgSize`
truthiness test reads its head directly. -/
def transformRawFiles (o : Options) (files : List Stat) (formats : List String) : Plan :=
  let keys := transformKeys formats files
  let svgGroup := groupFor files "svg"
  if o.svgShortCircuit = SvgMode.size ∧ svgSizeOf svgGroup ≠ 0 then
    keys.map (fun k =>
      if k = "svg" then (k, groupFor files k)
      else (k, sizeFilterGroup (headStat svgGroup) (svgSizeOf svgGroup) false false
                (groupFor files k)))
  else keys.map (fun k => (k, groupFor files k))

/-- Every format group of the plan is ascending by width (the claimed
srcset ordering invariant). -/
def planSortedByWidth (p : Plan) : Prop :=
  ∀ kg ∈ p, List.Sorted (fun a b : Stat => a.width ≤ b.width) kg.2

instance (p : Plan) : Decidable (planSortedByWidth p) := by
  unfold planSortedByWidth; infer_instance

/-- Every format group of the plan retains at least one entry. -/
def planGroupsNonempty (p : Plan) : Prop := ∀ kg ∈ p, kg.2 ≠ ([] : List Stat)

instance (p : Plan) : Decidable (planGroupsNonempty p) := by
  unfold planGroupsNonempty; infer_instance

/-- The loop body of `getFullStats` over the resolved output formats,
with its `throw`, `break` (svg strict short-circuit) and `continue`
paths. -/
def fullStatsLoop (digest : String → String) (src : Src) (o : Options) (md : Metadata) :
    List String → Except String (List Stat)
  | [] => Except.ok []
  | f :: rest =>
    if f = "" ∨ f = "auto" then
      Except.error "When using statsSync or statsByDimensionsSync, formats: [null | auto] to use the native image format is not supported."
    else if f = "svg" then
      if (md.format.orElse (fun _ => o.overrideInputFormat)) = some "svg" then
        let svgStats0 := getStat digest src o "svg" md.width md.height
        let svgStats := if md.size ≠ 0 then { svgStats0 with size := md.size } else svgStats0
        if o.svgShortCircuit = SvgMode.strict then Except.ok [svgStats]
        else
          match fullStatsLoop digest src o md rest with
          | Except.ok r => Except.ok (svgStats :: r)
          | Except.error e => Except.error e
      else fullStatsLoop digest src o md rest
    else
      let widths := getValidWidths md.width o.widths
        (decide (md.format = some "svg") && o.svgAllowUpscale) o.minimumThreshold
      let stats := widths.map (fun w =>
        getStat digest src o f w (Int.fdiv (w * md.height) md.width))
      match fullStatsLoop digest src o md rest with
      | Except.ok r => Except.ok (stats ++ r)
      | Except.error e => Except.error e

/-- When the codec probe reports a multi-frame `pageHeight` (animated
formats), use it as the effective height. -/
def adjustPageHeight (md : Metadata) : Metadata :=
  match md.pageHeight with
  | some ph => { md with height := ph }
  | none => md

/-- The metadata fixups at the top of `getFullStats`: swap width/height
for EXIF orientations 5–8, then the page-height fixup. -/
def adjustMetadata (metadata : Metadata) : Metadata :=
  adjustPageHeight
    (if needsRotation metadata.orientation then
      { metadata with width := metadata.height, height := metadata.width }
    else metadata)

/-- `Image.getFullStats(metadata)`: orientation/page-height fixups, the
format loop, then grouping. -/
def getFullStats (digest : String → String) (src : Src) (o : Options) (metadata : Metadata) :
    Except String Plan :=
  let outputFormats := getFormatsArray o.formats
    (metadata.format.orElse (fun _ => o.overrideInputFormat)) o.svgShortCircuit
  match fullStatsLoop digest src o (adjustMetadata metadata) outputFormats with
  | Except.ok results => Except.ok (transformRawFiles o results outputFormats)
  | Except.error e => Except.error e

/-! ## Materialization: `Image.resize` -/

/-- A disk mutation performed by `resize`. -/
inductive WriteOp where
  | mkdirOutputDir (dir : String)
  | mkdirParent (outputPath : String)
  | writeFileOp (outputPath : String) (data : String)
  | toFileOp (outputPath : String)
deriving DecidableEq, Repr

/-- The external effects available to `resize`: the filesystem probe of
already-materialized outputs, the source contents (`none` for a remote
source, where `getFileContents()` returns `false`), the brotli-size
estimator, each format hook's result (`none` models a falsy result),
and the codec engine's encoded bytes/size per stat. -/
structure ResizeEnv where
  existsOnDiskAt : String → Bool
  diskSizeAt : String → Nat
  sourceContents : Option String
  brotli : String → Nat
  hookResult : String → Option String
  codecData : Stat → String
  codecSize : Stat → Nat

/-- `fs.existsSync(stat.outputPath)` (false for an absent `outputPath`). -/
def statOnDisk (env : ResizeEnv) (stat : Stat) : Bool :=
  match stat.outputPath with
  | some p => env.existsOnDiskAt p
  | none => false

/-- The per-stat body of the `resize` loop: the disk-cache short-circuit,
the format-hook branch, and the default encode branch; returns the disk
writes issued and the settled stat (`none` when a format hook returns a
falsy result, in which case no promise is pushed). -/
def resizeStat (o : Options) (env : ResizeEnv) (outputFormat : String) (stat : Stat) :
    List WriteOp × Option Stat :=
  if o.useCache && statOnDisk env stat then
    let stat1 := if o.dryRun then { stat with buffer := env.sourceContents } else stat
    let sz :=
      if outputFormat = "svg" ∧ o.svgCompressionSize = "br" then
        env.brotli (env.sourceContents.getD "")
      else env.diskSizeAt (stat.outputPath.getD "")
    ([], some { stat1 with size := sz })
  else
    let dirWrites := if !o.dryRun then [WriteOp.mkdirOutputDir o.outputDir] else []
    if outputFormat ∈ o.formatHooks then
      match env.hookResult outputFormat with
      | some hookRes =>
          let sz := if o.svgCompressionSize = "br" then env.brotli hookRes else hookRes.length
          if o.dryRun then
            (dirWrites, some { stat with size := sz, buffer := some hookRes })
          else
            (dirWrites ++ [WriteOp.mkdirParent (stat.outputPath.getD ""),
                           WriteOp.writeFileOp (stat.outputPath.getD "") hookRes],
             some { stat with size := sz })
      | none => (dirWrites, none)
    else
      if !o.dryRun && stat.outputPath.isSome then
        (dirWrites ++ [WriteOp.mkdirParent (stat.outputPath.getD ""),
                       WriteOp.toFileOp (stat.outputPath.getD "")],
         some { stat with size := env.codecSize stat })
      else
        (dirWrites, some { stat with buffer := some (env.codecData stat),
                                     size := env.codecSize stat })

/-- `Image.resize(input)`: compute the full stats plan from the codec
metadata probe, materialize each stat, and re-group the settled files
under `Object.keys(fullStats)`.  Returns the disk writes issued and the
final plan. -/
def resizeModel (digest : String → String) (src : Src) (o : Options) (env : ResizeEnv)
    (md : Metadata) : Except String (List WriteOp × Plan) :=
  match getFullStats digest src o md with
  | Except.error e => Except.error e
  | Except.ok fullStats =>
      let results := fullStats.map (fun fg => fg.2.map (resizeStat o env fg.1))
      let writes := (results.map (fun l => (l.map Prod.fst).flatten)).flatten
      let files := (results.map (fun l => l.filterMap Prod.snd)).flatten
      Except.ok (writes, transformRawFiles o files (fullStats.map Prod.fst))

/-- The writes of a `resize` outcome (none for a rejected derivation). -/
def resizeWrites (r : Except String (List WriteOp × Plan)) : List WriteOp :=
  match r with
  | Except.ok wp => wp.1
  | Except.error _ => []

/-- The buffer slots of the returned stats of a `resize` outcome. -/
def resizeBuffers (r : Except String (List WriteOp × Plan)) : List (Option String) :=
  match r with
  | Except.ok wp => (allStats wp.2).map (fun s => s.buffer)
  | Except.error _ => []

/-! ## The derive entry point: `queueImage` -/

/-- The external inputs of one queued job: the `image-size` dimension
probe for local paths under `statsOnly`, the sharp metadata probe used
by `resize`, the resize effects, and the remote-fetch outcome. -/
structure QueueEnv where
  localProbe : String → Metadata
  sharpMetadata : Metadata
  resizeEnv : ResizeEnv
  fetch : Except String Unit

/-- The source is a string (`typeof src === "string"`). -/
def isStringSrc : Src → Bool
  | Src.localPath _ _ => true
  | Src.remoteUrl _ _ => true
  | Src.buffer _ => false

/-- The body of the queued job in `queueImage`: the `statsOnly` branches
for string sources, else input acquisition followed by `resize`.  The
`Bool` of the result records whether the codec engine was invoked
(`resize` constructs a sharp instance; the `statsOnly` branches do
not). -/
def queueJobBody (digest : String → String) (env : QueueEnv) (src : Src) (o : Options) :
    Except String (Bool × Plan) :=
  match src, o.statsOnly with
  | Src.remoteUrl _ _, true =>
      if o.remoteImageMetadata.width = 0 ∨ o.remoteImageMetadata.height = 0 then
        Except.error "When using statsOnly and remote images, you must supply a remoteImageMetadata object with width, height, format"
      else
        match getFullStats digest src o
          { width := o.remoteImageMetadata.width,
            height := o.remoteImageMetadata.height,
            format := o.remoteImageMetadata.format } with
        | Except.ok p => Except.ok (false, p)
        | Except.error e => Except.error e
  | Src.localPath p _, true =>
      let probe := env.localProbe p
      match getFullStats digest src o
        { width := probe.width, height := probe.height, format := probe.format } with
      | Except.ok pl => Except.ok (false, pl)
      | Except.error e => Except.error e
  | _, _ =>
      let fetched : Except String Unit :=
        match src with
        | Src.remoteUrl _ _ => env.fetch
        | _ => Except.ok ()
      match fetched with
      | Except.error e => Except.error e
      | Except.ok _ =>
          match resizeModel digest src o env.resizeEnv env.sharpMetadata with
          | Except.ok wp => Except.ok (true, wp.2)
          | Except.error e => Except.error e

instance {ε α : Type} [DecidableEq ε] [DecidableEq α] : DecidableEq (Except ε α) :=
  fun a b =>
  match a, b with
  | Except.ok x, Except.ok y =>
      if h : x = y then isTrue (h ▸ rfl) else isFalse (fun hc => h (Except.ok.inj hc))
  | Except.error x, Except.error y =>
      if h : x = y then isTrue (h ▸ rfl) else isFalse (fun hc => h (Except.error.inj hc))
  | Except.ok _, Except.error _ => isFalse (fun hc => Except.noConfusion hc)
  | Except.error _, Except.ok _ => isFalse (fun hc => Except.noConfusion hc)

/-- Whether the codec engine was invoked on the (settled) job outcome. -/
def codecWasInvoked (r : Except String (Bool × Plan)) : Bool :=
  match r with
  | Except.ok bp => bp.1
  | Except.error _ => false

/-- Modelled from the spec: `src/memory-cache.js` is required by the
module but is not under `src/`.  Per the spec (§4.5, §7), the cache maps
a normalized request signature to the pending/settled result, and a
failure "fails the in-memory cache entry (must not permanently cache a
failure — a subsequent equivalent call should be allowed to retry)", so
a failed entry is not retained and a later equivalent call misses. -/
def MemCache : Type := List (List (String × String) × (Bool × Plan))

/-- Modelled from the spec: cache lookup (a miss for failed entries,
which were not retained). -/
def memCacheGet (cache : MemCache) (k : List (String × String)) : Option (Bool × Plan) :=
  cache.lookup k

/-- Modelled from the spec: store a successfully settled entry. -/
def memCacheAdd (cache : MemCache) (k : List (String × String)) (v : Bool × Plan) : MemCache :=
  (k, v) :: cache

/-- `queueImage(src, opts)` over the process-wide in-memory cache: compute
the signature under `useCache`, serve a cached settled result, otherwise
run the job and retain its outcome only on success (spec-modelled
memory cache). -/
def queueImageModel (digest : String → String) (env : QueueEnv) (cache : MemCache)
    (src : Src) (o : Options) : Except String (Bool × Plan) × MemCache :=
  if o.useCache then
    match getInMemoryCacheKey src o with
    | none => (Except.error "ENOENT: no such file or directory (fs.statSync on the source)", cache)
    | some key =>
      match memCacheGet cache key with
      | some r => (Except.ok r, cache)
      | none =>
          match queueJobBody digest env src o with
          | Except.ok r => (Except.ok r, memCacheAdd cache key r)
          | Except.error e => (Except.error e, cache)
  else (queueJobBody digest env src o, cache)

end EImg

namespace EImg

/-! ## Claim C1 -/

/-- Claim C1, as stated, is false: `resolveWidths(500, [400,800], false, 1.25)`
does not return `[400,500]` on this code. -/
theorem getValidWidths_boundary_cex :
    ¬ getValidWidths 500 [some 400, some 800] false (mkRat 5 4) = [400, 500] := by
  decide

/-- Claim C1 (amended): `resolveWidths(500, [400,800], false, 1.25)` returns
exactly `[400]`: the over-large `800` is dropped entirely rather than
collapsed to the native width, because the separation test is strict
(`originalWidth > Math.floor(400 * 1.25) = 500` fails at exactly 500, so
the previous accepted width 400 does not count as small enough). -/
theorem getValidWidths_500_400_800 :
    getValidWidths 500 [some 400, some 800] false (mkRat 5 4) = [400] := by
  decide

/-! ## Claim C3 -/

/-- Claim C3, as stated, is false: `resolveFormats(["jpg","webp"], "jpeg",
false)` does not return `["webp","jpeg"]` on this code. -/
theorem getFormatsArray_alias_order_cex :
    ¬ getFormatsArray ["jpg", "webp"] (some "jpeg") SvgMode.off = ["webp", "jpeg"] := by
  decide

/-- Claim C3 (amended): `resolveFormats(["jpg","webp"], "jpeg", false)`
returns `["jpeg","webp"]`: the alias `jpg` is resolved to `jpeg`, and the
stable svg-first sort leaves the relative order of non-svg entries
unchanged, so the requested order is preserved. -/
theorem getFormatsArray_alias_preserves_order :
    getFormatsArray ["jpg", "webp"] (some "jpeg") SvgMode.off = ["jpeg", "webp"] := by
  decide

/-! ## Claim C4 -/

/-- Claim C4: the hash reads only the source bytes (for a local file, its
newline-normalized contents — not its path or size) and the five sharp
codec-parameter option objects, so two requests with identical source
bytes and identical codec parameters hash identically for every digest
function, whatever their `widths`, `formats`, `outputDir` and `urlPath`;
and the hash of fixed inputs is one fixed value (pure function of its
inputs, so two runs always agree). -/
theorem getHash_insensitive_to_widths_formats_paths
    (digest : String → String) (p1 p2 : String) (c : String) (s1 s2 : Nat) (o : Options)
    (w1 w2 : List (Option Int)) (f1 f2 : List String) (od1 od2 up1 up2 : String) :
    getHash digest (Src.localPath p1 (some (c, s1)))
        { o with widths := w1, formats := f1, outputDir := od1, urlPath := up1 } =
      getHash digest (Src.localPath p2 (some (c, s2)))
        { o with widths := w2, formats := f2, outputDir := od2, urlPath := up2 } ∧
    getHash digest (Src.localPath p1 (some (c, s1))) o =
      getHash digest (Src.localPath p1 (some (c, s1))) o :=
  ⟨rfl, rfl⟩

end EImg

namespace EImg

/-! ## Lemmas about `_transformRawFiles` -/

instance : IsTotal Stat (fun a b : Stat => a.width ≤ b.width) :=
  ⟨fun a b => le_total a.width b.width⟩

instance : IsTrans Stat (fun a b : Stat => a.width ≤ b.width) :=
  ⟨fun _ _ _ hab hbc => le_trans hab hbc⟩

lemma sorted_sortByWidth (l : List Stat) :
    List.Sorted (fun a b : Stat => a.width ≤ b.width) (sortByWidth l) :=
  List.sorted_insertionSort _ l

lemma mem_groupFor {e : Stat} {files : List Stat} {k : String}
    (h : e ∈ groupFor files k) : e ∈ files ∧ e.format = k := by
  unfold groupFor sortByWidth at h
  rw [(List.perm_insertionSort _ _).mem_iff] at h
  simpa using List.mem_filter.1 h

lemma mem_sizeFilterGroup {sv : Stat} {sz : Nat} :
    ∀ {l : List Stat} {b1 b2 : Bool} {e : Stat},
      e ∈ sizeFilterGroup sv sz b1 b2 l → e = sv ∨ (e ∈ l ∧ e.size ≤ sz) := by
  intro l
  induction l with
  | nil => intro b1 b2 e h; simp [sizeFilterGroup] at h
  | cons x xs ih =>
    intro b1 b2 e h
    simp only [sizeFilterGroup] at h
    split_ifs at h with hgt hadd hkept
    · rcases List.mem_cons.1 h with rfl | h'
      · exact Or.inl rfl
      · rcases ih h' with h'' | ⟨hm, hs⟩
        · exact Or.inl h''
        · exact Or.inr ⟨List.mem_cons_of_mem _ hm, hs⟩
    · rcases ih h with h'' | ⟨hm, hs⟩
      · exact Or.inl h''
      · exact Or.inr ⟨List.mem_cons_of_mem _ hm, hs⟩
    · rcases ih h with h'' | ⟨hm, hs⟩
      · exact Or.inl h''
      · exact Or.inr ⟨List.mem_cons_of_mem _ hm, hs⟩
    · rcases List.mem_cons.1 h with rfl | h'
      · exact Or.inr ⟨List.mem_cons_self _ _, le_of_not_lt hgt⟩
      · rcases ih h' with h'' | ⟨hm, hs⟩
        · exact Or.inl h''
        · exact Or.inr ⟨List.mem_cons_of_mem _ hm, hs⟩

lemma sizeFilterGroup_added (sv : Stat) (sz : Nat) :
    ∀ (l : List Stat) (b2 : Bool),
      sizeFilterGroup sv sz true b2 l = l.filter (fun e => e.size ≤ sz)
  | [], _ => rfl
  | x :: xs, b2 => by
    by_cases hx : x.size > sz
    · have hnp : ¬ x.size ≤ sz := not_le.mpr hx
      simp [sizeFilterGroup, hx, hnp, sizeFilterGroup_added sv sz xs b2]
    · have hp : x.size ≤ sz := le_of_not_lt hx
      simp [sizeFilterGroup, hx, hp, sizeFilterGroup_added sv sz xs true]

lemma sizeFilterGroup_kept (sv : Stat) (sz : Nat) :
    ∀ l : List Stat,
      sizeFilterGroup sv sz false true l =
        l.takeWhile (fun e => e.size ≤ sz) ++
          match l.dropWhile (fun e => e.size ≤ sz) with
          | [] => []
          | _ :: post => sv :: post.filter (fun e => e.size ≤ sz)
  | [] => rfl
  | x :: xs => by
    by_cases hx : x.size > sz
    · have hnp : ¬ x.size ≤ sz := not_le.mpr hx
      simp [sizeFilterGroup, hx, hnp, sizeFilterGroup_added sv sz xs true,
        List.takeWhile_cons, List.dropWhile_cons]
    · have hp : x.size ≤ sz := le_of_not_lt hx
      simp [sizeFilterGroup, hx, hp, sizeFilterGroup_kept sv sz xs,
        List.takeWhile_cons, List.dropWhile_cons]

/-- `sizeFilterGroup` started on the `(false, false)` state — the call
`_transformRawFiles` makes on every raster group — computes exactly the
amended claim's description `sizeFilterSpec`. -/
lemma sizeFilterGroup_spec (sv : Stat) (sz : Nat) (l : List Stat) :
    sizeFilterGroup sv sz false false l = sizeFilterSpec sv sz l := by
  cases l with
  | nil => rfl
  | cons x xs =>
    by_cases hx : x.size > sz
    · have hnp : ¬ x.size ≤ sz := not_le.mpr hx
      simp [sizeFilterGroup, sizeFilterSpec, hx, hnp,
        sizeFilterGroup_added sv sz xs false, List.takeWhile_cons, List.dropWhile_cons]
    · have hp : x.size ≤ sz := le_of_not_lt hx
      simp [sizeFilterGroup, sizeFilterSpec, hx, hp, sizeFilterGroup_kept sv sz xs,
        List.takeWhile_cons, List.dropWhile_cons]

lemma sizeFilterGroup_all_big (sv : Stat) (sz : Nat) :
    ∀ (l : List Stat), (∀ e ∈ l, sz < e.size) →
      ∀ b1 : Bool, sizeFilterGroup sv sz b1 false l = []
  | [], _, _ => rfl
  | x :: xs, h, b1 => by
    have hx := h x (List.mem_cons_self x xs)
    have hrec := sizeFilterGroup_all_big sv sz xs
      (fun e he => h e (List.mem_cons_of_mem x he))
    cases b1 <;> simp [sizeFilterGroup, hx, hrec true]

end EImg

namespace EImg

/-! ## Claim C2 -/

/-- An SVG stat of byte size 100 (width 10). -/
def c2svg : Stat :=
  { format := "svg", width := 10, height := 10, url := "s", sourceType := MIME_TYPES "svg",
    srcset := "s 10w", size := 100 }

/-- A webp stat of byte size 200 (width 10): larger than the SVG. -/
def c2webp : Stat :=
  { format := "webp", width := 10, height := 10, url := "w", sourceType := MIME_TYPES "webp",
    srcset := "w 10w", size := 200 }

/-- Claim C2, as stated, is false: under `svgShortCircuit "size"`, when
every raster of a group is larger than the SVG entry the first offender
is dropped (not substituted), so the group retains no entry at all — the
webp group of this plan is empty. -/
theorem svgSizeFilter_group_can_empty_cex :
    ({ svgShortCircuit := SvgMode.size } : Options).svgShortCircuit = SvgMode.size ∧
    ¬ planGroupsNonempty
        (transformRawFiles { svgShortCircuit := SvgMode.size } [c2svg, c2webp] ["svg", "webp"]) := by
  constructor
  · rfl
  · decide

/-- Claim C2 (amended): under `svgShortCircuit "size"`, in every non-svg
format group of the returned plan no entry larger than the SVG entry
survives (every kept stat has size at most the SVG size, and is either
the substituted SVG entry or one of the original files), when every
raster of that format is strictly larger than the SVG the group is
emptied entirely, and each group equals `sizeFilterSpec` exactly: the
kept prefix of rasters no larger than the SVG, then the SVG entry
substituted at the first offending slot — only when that prefix is
nonempty, i.e. a smaller raster was already kept — then the remaining
non-offending rasters, every other offender dropped.  So a group does
not always retain an entry. -/
theorem svgSizeFilter_filters_oversized (o : Options) (files : List Stat)
    (formats : List String) (svgHead : Stat) (rest : List Stat)
    (hmode : o.svgShortCircuit = SvgMode.size)
    (hgrp : groupFor files "svg" = svgHead :: rest)
    (hsz : svgHead.size ≠ 0) :
    ∀ kg ∈ transformRawFiles o files formats, kg.1 ≠ "svg" →
      (∀ s ∈ kg.2, s.size ≤ svgHead.size) ∧
      (∀ s ∈ kg.2, s = svgHead ∨ s ∈ files) ∧
      ((∀ s ∈ files, s.format = kg.1 → svgHead.size < s.size) → kg.2 = ([] : List Stat)) ∧
      kg.2 = sizeFilterSpec svgHead svgHead.size (groupFor files kg.1) := by
  intro kg hkg hne
  simp only [transformRawFiles] at hkg
  rw [hgrp] at hkg
  simp only [svgSizeOf, headStat] at hkg
  rw [if_pos ⟨hmode, hsz⟩] at hkg
  rcases List.mem_map.1 hkg with ⟨k, hk, hkeq⟩
  by_cases hksvg : k = "svg"
  · rw [if_pos hksvg] at hkeq
    exact absurd (hkeq ▸ hksvg) hne
  · rw [if_neg hksvg] at hkeq
    subst hkeq
    refine ⟨?_, ?_, ?_, ?_⟩
    · intro s hs
      rcases mem_sizeFilterGroup hs with rfl | ⟨_, hle⟩
      · exact le_refl _
      · exact hle
    · intro s hs
      rcases mem_sizeFilterGroup hs with rfl | ⟨hm, _⟩
      · exact Or.inl rfl
      · exact Or.inr (mem_groupFor hm).1
    · intro hbig
      exact sizeFilterGroup_all_big svgHead svgHead.size _
        (fun e he => hbig e (mem_groupFor he).1 (mem_groupFor he).2) false
    · exact sizeFilterGroup_spec svgHead svgHead.size (groupFor files k)

/-- An SVG stat of byte size 100 at the native width 50. -/
def c2wsvg : Stat :=
  { format := "svg", width := 50, height := 40, url := "s", sourceType := MIME_TYPES "svg",
    srcset := "s 50w", size := 100 }

/-- A webp stat of byte size 50 (kept: smaller than the SVG). -/
def c2wsmall : Stat :=
  { format := "webp", width := 30, height := 24, url := "w30", sourceType := MIME_TYPES "webp",
    srcset := "w30 30w", size := 50 }

/-- A webp stat of byte size 200 (the offender: larger than the SVG). -/
def c2wbig : Stat :=
  { format := "webp", width := 40, height := 32, url := "w40", sourceType := MIME_TYPES "webp",
    srcset := "w40 40w", size := 200 }

/-- Witness for the amended claim C2 at a concrete plan in which the SVG
entry is substituted for the oversized webp slot: the returned webp
group is `[c2wsmall, c2wsvg]` — the smaller raster kept, the size-200
offender replaced by the SVG entry. -/
theorem svgSizeFilter_filters_oversized_witness :
    ({ svgShortCircuit := SvgMode.size } : Options).svgShortCircuit = SvgMode.size ∧
    groupFor [c2wsvg, c2wsmall, c2wbig] "svg" = [c2wsvg] ∧
    c2wsvg.size ≠ 0 ∧
    transformRawFiles { svgShortCircuit := SvgMode.size } [c2wsvg, c2wsmall, c2wbig]
        ["svg", "webp"] = [("svg", [c2wsvg]), ("webp", [c2wsmall, c2wsvg])] ∧
    (∀ kg ∈ transformRawFiles { svgShortCircuit := SvgMode.size }
        [c2wsvg, c2wsmall, c2wbig] ["svg", "webp"], kg.1 ≠ "svg" →
      (∀ s ∈ kg.2, s.size ≤ c2wsvg.size) ∧
      (∀ s ∈ kg.2, s = c2wsvg ∨ s ∈ [c2wsvg, c2wsmall, c2wbig]) ∧
      ((∀ s ∈ [c2wsvg, c2wsmall, c2wbig], s.format = kg.1 → c2wsvg.size < s.size) →
        kg.2 = ([] : List Stat)) ∧
      kg.2 = sizeFilterSpec c2wsvg c2wsvg.size (groupFor [c2wsvg, c2wsmall, c2wbig] kg.1)) :=
  ⟨rfl, by decide, by decide, by decide,
    svgSizeFilter_filters_oversized _ _ _ _ [] rfl (by decide) (by decide)⟩

/-! ## Claim C9 -/

/-- The raster group of this plan, sorted ascending as `[300, 600, 900]`,
has sizes `[50, 200, 80]` against an SVG of size 100 at native width
1000: the 600 slot is substituted by the width-1000 SVG entry and the
900 slot is kept after it. -/
def c9svg : Stat :=
  { format := "svg", width := 1000, height := 800, url := "s", sourceType := MIME_TYPES "svg",
    srcset := "s 1000w", size := 100 }

def c9w300 : Stat :=
  { format := "webp", width := 300, height := 240, url := "w300",
    sourceType := MIME_TYPES "webp", srcset := "w300 300w", size := 50 }

def c9w600 : Stat :=
  { format := "webp", width := 600, height := 480, url := "w600",
    sourceType := MIME_TYPES "webp", srcset := "w600 600w", size := 200 }

def c9w900 : Stat :=
  { format := "webp", width := 900, height := 720, url := "w900",
    sourceType := MIME_TYPES "webp", srcset := "w900 900w", size := 80 }

/-- Claim C9, as stated, is false: after the `svgShortCircuit "size"`
post-filter the webp group of this plan has widths `[300, 1000, 900]`
(the substituted native-width SVG entry lands mid-group), which is not
ascending. -/
theorem plan_width_order_broken_by_size_filter_cex :
    ¬ planSortedByWidth
        (transformRawFiles { svgShortCircuit := SvgMode.size }
          [c9svg, c9w300, c9w600, c9w900] ["svg", "webp"]) := by
  decide

/-- Claim C9 (amended): whenever the `svgShortCircuit "size"` post-filter
is not in play (the option is `false` or `true`), every format group of
a `_transformRawFiles` plan — hence of every plan returned by `derive`,
`statsSync` or `statsByDimensionsSync` — is ascending by width; under
`"size"` the substituted SVG entry can break the order. -/
theorem plan_sorted_without_size_filter (o : Options) (files : List Stat)
    (formats : List String) (h : o.svgShortCircuit ≠ SvgMode.size) :
    planSortedByWidth (transformRawFiles o files formats) := by
  intro kg hkg
  simp only [transformRawFiles] at hkg
  rw [if_neg (fun hc => h hc.1)] at hkg
  rcases List.mem_map.1 hkg with ⟨k, _, rfl⟩
  exact sorted_sortByWidth _

/-- Witness for the amended claim C9 on a concrete plan. -/
theorem plan_sorted_without_size_filter_witness :
    ({ svgShortCircuit := SvgMode.off } : Options).svgShortCircuit ≠ SvgMode.size ∧
    planSortedByWidth
      (transformRawFiles { svgShortCircuit := SvgMode.off }
        [c9svg, c9w300, c9w600, c9w900] ["svg", "webp"]) :=
  ⟨by decide, plan_sorted_without_size_filter _ _ _ (by decide)⟩

end EImg

namespace EImg

/-! ## Lemmas about `dedupFirst`, the svg-first sort and `getFullStats` -/

lemma mem_dedupFirstAux [DecidableEq α] (a : α) :
    ∀ (l seen : List α), a ∈ dedupFirstAux seen l ↔ (a ∈ l ∧ a ∉ seen) := by
  intro l
  induction l with
  | nil => intro seen; simp [dedupFirstAux]
  | cons x xs ih =>
    intro seen
    by_cases hx : x ∈ seen
    · simp only [dedupFirstAux, if_pos hx, ih, List.mem_cons]
      by_cases hax : a = x
      · subst hax; simp [hx]
      · simp [hax]
    · simp only [dedupFirstAux, if_neg hx, List.mem_cons, ih]
      by_cases hax : a = x
      · subst hax; simp [hx]
      · simp [hax]

lemma nodup_dedupFirstAux [DecidableEq α] :
    ∀ (l seen : List α), (dedupFirstAux seen l).Nodup := by
  intro l
  induction l with
  | nil => intro seen; simp [dedupFirstAux]
  | cons x xs ih =>
    intro seen
    by_cases hx : x ∈ seen
    · simpa only [dedupFirstAux, if_pos hx] using ih seen
    · simp only [dedupFirstAux, if_neg hx, List.nodup_cons]
      refine ⟨fun hmem => ?_, ih _⟩
      exact ((mem_dedupFirstAux x xs (x :: seen)).1 hmem).2 (List.mem_cons_self _ _)

lemma mem_dedupFirst [DecidableEq α] {a : α} {l : List α} :
    a ∈ dedupFirst l ↔ a ∈ l := by
  simp [dedupFirst, mem_dedupFirstAux]

lemma nodup_dedupFirst [DecidableEq α] (l : List α) : (dedupFirst l).Nodup :=
  nodup_dedupFirstAux l []

lemma sorted_svgFirst_head {l : List String}
    (hs : List.Sorted svgFirst l) (hm : "svg" ∈ l) : ∃ t, l = "svg" :: t := by
  cases l with
  | nil => simp at hm
  | cons a t =>
    by_cases ha : a = "svg"
    · exact ⟨t, by rw [ha]⟩
    · have hm' : "svg" ∈ t := by
        rcases List.mem_cons.1 hm with h | h
        · exact absurd h.symm ha
        · exact h
      rcases (List.sorted_cons.1 hs).1 "svg" hm' with h | h
      · exact absurd h ha
      · exact absurd rfl h

lemma getFormatsArray_svg_head (formats : List String) (mode : SvgMode)
    (hmode : mode ≠ SvgMode.size)
    (hmem : ∃ f ∈ formats, f = "svg" ∨ f = "auto" ∨ f = "") :
    ∃ rest, getFormatsArray formats (some "svg") mode = "svg" :: rest := by
  obtain ⟨f, hf, hfc⟩ := hmem
  have hne : formats ≠ [] := List.ne_nil_of_mem hf
  have hmapped : "svg" ∈ formats.map (mapFormat (some "svg")) := by
    refine List.mem_map.2 ⟨f, hf, ?_⟩
    rcases hfc with rfl | rfl | rfl <;> rfl
  unfold getFormatsArray
  rw [if_neg (by simpa using hne)]
  rw [if_pos hmode]
  have hsorted := List.sorted_insertionSort svgFirst (formats.map (mapFormat (some "svg")))
  have hmem2 : "svg" ∈ List.insertionSort svgFirst (formats.map (mapFormat (some "svg"))) :=
    (List.perm_insertionSort _ _).mem_iff.2 hmapped
  obtain ⟨t, ht⟩ := sorted_svgFirst_head hsorted hmem2
  rw [ht]
  exact ⟨dedupFirstAux ["svg"] t, by simp [dedupFirst, dedupFirstAux]⟩

lemma getStat_format (digest : String → String) (src : Src) (o : Options)
    (f : String) (w h : Int) : (getStat digest src o f w h).format = f := by
  unfold getStat
  rcases o.urlFormat with _ | u <;> rfl

lemma adjustPageHeight_format (md : Metadata) :
    (adjustPageHeight md).format = md.format := by
  unfold adjustPageHeight
  split <;> rfl

lemma adjustMetadata_format (md : Metadata) : (adjustMetadata md).format = md.format := by
  unfold adjustMetadata
  rw [adjustPageHeight_format]
  split <;> rfl

lemma fullStatsLoop_svg_strict (digest : String → String) (src : Src) (o : Options)
    (md : Metadata) (rest : List String)
    (hfmt : md.format = some "svg") (hsc : o.svgShortCircuit = SvgMode.strict) :
    ∃ s, fullStatsLoop digest src o md ("svg" :: rest) = Except.ok [s] ∧
      s.format = "svg" := by
  unfold fullStatsLoop
  rw [if_neg (by decide : ¬("svg" = "" ∨ "svg" = "auto"))]
  rw [if_pos (rfl : "svg" = "svg")]
  have horelse : (md.format.orElse (fun _ => o.overrideInputFormat)) = some "svg" := by
    rw [hfmt]; rfl
  rw [if_pos horelse, if_pos hsc]
  by_cases hsz : md.size ≠ 0
  · refine ⟨{ getStat digest src o "svg" md.width md.height with size := md.size }, ?_, ?_⟩
    · rw [if_pos hsz]
    · exact getStat_format digest src o "svg" md.width md.height
  · refine ⟨getStat digest src o "svg" md.width md.height, ?_, ?_⟩
    · rw [if_neg hsz]
    · exact getStat_format digest src o "svg" md.width md.height

lemma groupFor_single_self (s : Stat) (k : String) (h : s.format = k) :
    groupFor [s] k = [s] := by
  unfold groupFor sortByWidth
  rw [show List.filter (fun f => decide (f.format = k)) [s] = [s] from by simp [h]]
  rfl

lemma groupFor_single_other (s : Stat) (k : String) (h : s.format ≠ k) :
    groupFor [s] k = [] := by
  unfold groupFor sortByWidth
  rw [show List.filter (fun f => decide (f.format = k)) [s] = [] from by simp [h]]
  rfl

lemma allStats_cons (k : String) (g : List Stat) (t : List (String × List Stat)) :
    allStats ((k, g) :: t) = g ++ allStats t := rfl

lemma allStats_single_nil (s : Stat) (hs : s.format = "svg") :
    ∀ ks : List String, "svg" ∉ ks →
      allStats (ks.map (fun k => (k, groupFor [s] k))) = [] := by
  intro ks
  induction ks with
  | nil => intro _; rfl
  | cons k t ih =>
    intro hns
    have hk : s.format ≠ k := by
      rw [hs]; exact fun hkk => hns (by rw [hkk]; exact List.mem_cons_self _ _)
    rw [List.map_cons, allStats_cons, groupFor_single_other s k hk, List.nil_append]
    exact ih (fun hm => hns (List.mem_cons_of_mem _ hm))

lemma allStats_single (s : Stat) (hs : s.format = "svg") :
    ∀ ks : List String, ks.Nodup → "svg" ∈ ks →
      allStats (ks.map (fun k => (k, groupFor [s] k))) = [s] := by
  intro ks
  induction ks with
  | nil => intro _ hm; simp at hm
  | cons k t ih =>
    intro hnd hm
    by_cases hk : k = "svg"
    · subst hk
      rw [List.map_cons, allStats_cons, groupFor_single_self s "svg" hs,
          allStats_single_nil s hs t (List.nodup_cons.1 hnd).1]
      simp
    · have hm' : "svg" ∈ t := by
        rcases List.mem_cons.1 hm with h | h
        · exact absurd h.symm hk
        · exact h
      have hsk : s.format ≠ k := by
        rw [hs]; exact fun hkk => hk hkk.symm
      rw [List.map_cons, allStats_cons, groupFor_single_other s k hsk, List.nil_append]
      exact ih (List.nodup_cons.1 hnd).2 hm'

lemma transformKeys_single (fmts : List String) (s : Stat)
    (hmem : s.format ∈ fmts.filter (fun f => f ≠ "" ∧ f ≠ "auto")) :
    transformKeys fmts [s] = dedupFirst (fmts.filter (fun f => f ≠ "" ∧ f ≠ "auto")) := by
  unfold transformKeys
  simp only [List.foldl_cons, List.foldl_nil]
  rw [if_pos (mem_dedupFirst.2 hmem)]

lemma transformRawFiles_single_svg (o : Options) (s : Stat) (rest : List String)
    (hs : s.format = "svg") (hmode : o.svgShortCircuit ≠ SvgMode.size) :
    allStats (transformRawFiles o [s] ("svg" :: rest)) = [s] := by
  simp only [transformRawFiles]
  rw [if_neg (fun hc => hmode hc.1)]
  have hfil : s.format ∈ ("svg" :: rest).filter (fun f => f ≠ "" ∧ f ≠ "auto") := by
    rw [hs]
    exact List.mem_filter.2 ⟨List.mem_cons_self _ _, by decide⟩
  rw [transformKeys_single ("svg" :: rest) s hfil]
  refine allStats_single s hs _ (nodup_dedupFirst _) (mem_dedupFirst.2 ?_)
  exact List.mem_filter.2 ⟨List.mem_cons_self _ _, by decide⟩

end EImg

namespace EImg

/-! ## Claim C5 -/

/-- The formats of all stats of a plan outcome. -/
def planFormats (r : Except String Plan) : List String :=
  match r with
  | Except.ok p => (allStats p).map (fun s => s.format)
  | Except.error _ => []

/-- Claim C5, as stated, is false: it quantifies over all options with
`svgShortCircuit === true`, but when the requested `formats` contain no
svg/auto entry (here `["webp"]`, and likewise under the module default
`["webp","jpeg"]`), an SVG-native source still produces raster stats and
no svg entry at all — nothing short-circuits. -/
theorem svg_strict_needs_svg_format_cex :
    ({ formats := ["webp"], svgShortCircuit := SvgMode.strict } : Options).svgShortCircuit
        = SvgMode.strict ∧
    planFormats (getFullStats (fun _ => "H") (Src.buffer "x")
        { formats := ["webp"], svgShortCircuit := SvgMode.strict }
        { width := 100, height := 80, format := some "svg" }) = ["webp"] := by
  constructor
  · rfl
  · decide

/-- Claim C5 (amended): for every source whose native format is SVG, with
`svgShortCircuit === true` and a requested format list containing an
`svg`, `auto` or falsy entry (which resolves to svg), the full-stats
plan contains exactly the single svg entry and no raster stats: the
svg-first ordering puts svg at the head of the resolved formats and the
loop breaks there. -/
theorem svg_strict_single_entry (digest : String → String) (src : Src) (o : Options)
    (md : Metadata)
    (hfmt : md.format = some "svg")
    (hsc : o.svgShortCircuit = SvgMode.strict)
    (hmem : ∃ f ∈ o.formats, f = "svg" ∨ f = "auto" ∨ f = "") :
    ∃ p, getFullStats digest src o md = Except.ok p ∧
      (allStats p).length = 1 ∧ ∀ s ∈ allStats p, s.format = "svg" := by
  have hauto : (md.format.orElse (fun _ => o.overrideInputFormat)) = some "svg" := by
    rw [hfmt]; rfl
  obtain ⟨rest, hrest⟩ :=
    getFormatsArray_svg_head o.formats o.svgShortCircuit (by rw [hsc]; decide) hmem
  have hfmt2 : (adjustMetadata md).format = some "svg" := by
    rw [adjustMetadata_format, hfmt]
  obtain ⟨s, hloop, hsf⟩ :=
    fullStatsLoop_svg_strict digest src o (adjustMetadata md) rest hfmt2 hsc
  refine ⟨transformRawFiles o [s] ("svg" :: rest), ?_, ?_, ?_⟩
  · simp only [getFullStats]
    rw [hauto, hrest, hloop]
  · rw [transformRawFiles_single_svg o s rest hsf (by rw [hsc]; decide)]
    rfl
  · rw [transformRawFiles_single_svg o s rest hsf (by rw [hsc]; decide)]
    intro x hx
    rw [List.mem_singleton.1 hx]
    exact hsf

/-- Witness for the amended claim C5: an SVG source with
`formats: ["svg","webp"]` and `svgShortCircuit: true`. -/
theorem svg_strict_single_entry_witness :
    ({ width := 100, height := 80, format := some "svg" } : Metadata).format = some "svg" ∧
    ({ formats := ["svg", "webp"], svgShortCircuit := SvgMode.strict } : Options).svgShortCircuit
        = SvgMode.strict ∧
    (∃ f ∈ ({ formats := ["svg", "webp"], svgShortCircuit := SvgMode.strict } : Options).formats,
      f = "svg" ∨ f = "auto" ∨ f = "") ∧
    (∃ p, getFullStats (fun _ => "H") (Src.buffer "x")
        { formats := ["svg", "webp"], svgShortCircuit := SvgMode.strict }
        { width := 100, height := 80, format := some "svg" } = Except.ok p ∧
      (allStats p).length = 1 ∧ ∀ s ∈ allStats p, s.format = "svg") :=
  ⟨rfl, rfl, ⟨"svg", by simp, Or.inl rfl⟩,
    svg_strict_single_entry _ _ _ _ rfl rfl ⟨"svg", by simp, Or.inl rfl⟩⟩

end EImg

namespace EImg

/-! ## Lemmas about `resize` and `_transformRawFiles` membership -/

lemma headStat_mem {g : List Stat} (h : svgSizeOf g ≠ 0) : headStat g ∈ g := by
  cases g with
  | nil => simp [svgSizeOf] at h
  | cons a t => exact List.mem_cons_self _ _

lemma mem_allStats_transformRawFiles {s : Stat} {o : Options} {files : List Stat}
    {formats : List String}
    (h : s ∈ allStats (transformRawFiles o files formats)) : s ∈ files := by
  simp only [transformRawFiles] at h
  split_ifs at h with hc
  · rcases List.mem_flatten.1 h with ⟨g, hg, hsg⟩
    rcases List.mem_map.1 hg with ⟨kg, hkg, rfl⟩
    rcases List.mem_map.1 hkg with ⟨k, _, rfl⟩
    by_cases hk : k = "svg"
    · rw [if_pos hk] at hsg
      exact (mem_groupFor hsg).1
    · rw [if_neg hk] at hsg
      rcases mem_sizeFilterGroup hsg with rfl | ⟨hm, _⟩
      · exact (mem_groupFor (headStat_mem hc.2)).1
      · exact (mem_groupFor hm).1
  · rcases List.mem_flatten.1 h with ⟨g, hg, hsg⟩
    rcases List.mem_map.1 hg with ⟨kg, hkg, rfl⟩
    rcases List.mem_map.1 hkg with ⟨k, _, rfl⟩
    exact (mem_groupFor hsg).1

lemma resizeStat_dryRun (o : Options) (env : ResizeEnv) (f : String) (stat : Stat)
    (hdry : o.dryRun = true) (hsc : env.sourceContents.isSome) :
    (resizeStat o env f stat).1 = [] ∧
    (∀ s, (resizeStat o env f stat).2 = some s → s.buffer.isSome) := by
  simp only [resizeStat, hdry, Bool.not_true, Bool.false_and, if_true, if_false,
    Bool.false_eq_true]
  split
  · refine ⟨rfl, fun s hs => ?_⟩
    cases hs
    simpa using hsc
  · split
    · split
      · exact ⟨rfl, fun s hs => by cases hs; simp⟩
      · exact ⟨rfl, fun s hs => by cases hs⟩
    · exact ⟨rfl, fun s hs => by cases hs; simp⟩

end EImg

namespace EImg

/-! ## Claim C7 -/

/-- Claim C7 (amended): with `dryRun` set, `resize` never writes a file or
directory; every returned stat carries a buffer whenever the source is
locally readable, but a stat short-circuited by the existing disk cache
carries the source file's contents — not that slot's freshly encoded
output (only freshly encoded or hook-produced stats carry the encoded
output). -/
theorem dryRun_no_writes_buffers (digest : String → String) (src : Src) (o : Options)
    (env : ResizeEnv) (md : Metadata)
    (hdry : o.dryRun = true) (hsc : env.sourceContents.isSome) :
    resizeWrites (resizeModel digest src o env md) = [] ∧
    ∀ b ∈ resizeBuffers (resizeModel digest src o env md), b.isSome := by
  unfold resizeModel resizeWrites resizeBuffers
  cases hfs : getFullStats digest src o md with
  | error e => exact ⟨rfl, by simp⟩
  | ok fullStats =>
    simp only
    constructor
    · rw [List.flatten_eq_nil_iff]
      intro x hx
      rcases List.mem_map.1 hx with ⟨l, hl, rfl⟩
      rcases List.mem_map.1 hl with ⟨fg, _, rfl⟩
      rw [List.flatten_eq_nil_iff]
      intro y hy
      rcases List.mem_map.1 hy with ⟨pr, hpr, rfl⟩
      rcases List.mem_map.1 hpr with ⟨st, _, rfl⟩
      exact (resizeStat_dryRun o env fg.1 st hdry hsc).1
    · intro b hb
      rcases List.mem_map.1 hb with ⟨s, hs, rfl⟩
      have hsf := mem_allStats_transformRawFiles hs
      rcases List.mem_flatten.1 hsf with ⟨fl, hfl, hsfl⟩
      rcases List.mem_map.1 hfl with ⟨l, hl, rfl⟩
      rcases List.mem_map.1 hl with ⟨fg, _, rfl⟩
      rcases List.mem_filterMap.1 hsfl with ⟨pr, hpr, hpr2⟩
      rcases List.mem_map.1 hpr with ⟨st, _, rfl⟩
      exact (resizeStat_dryRun o env fg.1 st hdry hsc).2 s hpr2

/-- A jpeg source whose only derived artifact is already on disk. -/
def c7src : Src := Src.localPath "a.jpg" (some ("ORIGINALSOURCE", 14))

def c7opts : Options := { formats := ["jpeg"], dryRun := true }

def c7md : Metadata := { width := 4, height := 4, format := some "jpeg" }

/-- Every materialized output is already on disk, and the codec would
encode the bytes `"ENCODED"` for any slot. -/
def c7env : ResizeEnv :=
  { existsOnDiskAt := fun _ => true, diskSizeAt := fun _ => 7,
    sourceContents := some "ORIGINALSOURCE", brotli := fun s => s.length,
    hookResult := fun _ => none, codecData := fun _ => "ENCODED",
    codecSize := fun _ => 3 }

/-- Claim C7, as stated, is false: under `dryRun` with a disk-cached
output, the returned stat's buffer is the source file's contents
(`"ORIGINALSOURCE"`), not the encoded output of that slot (the codec
encodes `"ENCODED"` for every slot in this environment). -/
theorem dryRun_cached_buffer_cex :
    c7opts.dryRun = true ∧
    resizeBuffers (resizeModel (fun _ => "HASH") c7src c7opts c7env c7md) =
      [some "ORIGINALSOURCE"] ∧
    c7env.codecData = (fun _ => "ENCODED") ∧
    "ORIGINALSOURCE" ≠ "ENCODED" := by
  exact ⟨rfl, by decide, rfl, by decide⟩

/-- A fresh (not yet materialized) variant of the same environment. -/
def c7wenv : ResizeEnv :=
  { existsOnDiskAt := fun _ => false, diskSizeAt := fun _ => 7,
    sourceContents := some "ORIGINALSOURCE", brotli := fun s => s.length,
    hookResult := fun _ => none, codecData := fun _ => "ENCODED",
    codecSize := fun _ => 3 }

/-- Witness for the amended claim C7 on a concrete derivation. -/
theorem dryRun_no_writes_buffers_witness :
    c7opts.dryRun = true ∧ c7wenv.sourceContents.isSome ∧
    (resizeWrites (resizeModel (fun _ => "HASH") c7src c7opts c7wenv c7md) = [] ∧
     ∀ b ∈ resizeBuffers (resizeModel (fun _ => "HASH") c7src c7opts c7wenv c7md),
       b.isSome) :=
  ⟨rfl, rfl, dryRun_no_writes_buffers _ _ _ _ _ rfl rfl⟩

end EImg

namespace EImg

/-! ## Claim C8 -/

/-- A statsOnly request with a jpeg-raster probe. -/
def c8opts : Options := { formats := ["jpeg"], statsOnly := true }

def c8renv : ResizeEnv :=
  { existsOnDiskAt := fun _ => false, diskSizeAt := fun _ => 0,
    sourceContents := some "BUF", brotli := fun s => s.length,
    hookResult := fun _ => none, codecData := fun _ => "E",
    codecSize := fun _ => 1 }

def c8env : QueueEnv :=
  { localProbe := fun _ => { width := 4, height := 4, format := some "jpeg" },
    sharpMetadata := { width := 4, height := 4, format := some "jpeg" },
    resizeEnv := c8renv, fetch := Except.ok () }

/-- Claim C8, as stated, is false: for an in-memory buffer source the
`typeof src === "string"` guard bypasses `statsOnly`, so the job runs
the full `resize` pipeline and the codec engine is invoked. -/
theorem statsOnly_buffer_bypass_cex :
    c8opts.statsOnly = true ∧
    codecWasInvoked (queueJobBody (fun _ => "HASH") c8env (Src.buffer "BUF") c8opts) = true := by
  exact ⟨rfl, by decide⟩

/-- Claim C8 (amended): for string sources (a local path or a remote URL)
with `statsOnly` set, the codec engine is never invoked — the outcome is
the same under any two environments that agree on the lightweight
`image-size` dimension probe, so neither the sharp metadata probe, the
codec outputs, the filesystem, nor the remote fetch are consulted
(remote sources use only the caller-supplied `remoteImageMetadata`).
Buffer sources bypass `statsOnly` entirely. -/
theorem statsOnly_no_codec_for_string_src (digest : String → String)
    (env env' : QueueEnv) (src : Src) (o : Options)
    (hstats : o.statsOnly = true) (hstr : isStringSrc src = true)
    (hprobe : env.localProbe = env'.localProbe) :
    codecWasInvoked (queueJobBody digest env src o) = false ∧
    queueJobBody digest env src o = queueJobBody digest env' src o := by
  cases src with
  | localPath p onDisk =>
    constructor
    · simp only [queueJobBody, hstats]
      split
      · rfl
      · rfl
    · simp only [queueJobBody, hstats, hprobe]
  | remoteUrl u v =>
    constructor
    · simp only [queueJobBody, hstats]
      split
      · rfl
      · split
        · rfl
        · rfl
    · simp only [queueJobBody, hstats]
  | buffer b => simp [isStringSrc] at hstr

/-- Witness for the amended claim C8 on a concrete local statsOnly call. -/
theorem statsOnly_no_codec_for_string_src_witness :
    c8opts.statsOnly = true ∧
    isStringSrc (Src.localPath "a.jpg" (some ("X", 1))) = true ∧
    c8env.localProbe = c8env.localProbe ∧
    (codecWasInvoked (queueJobBody (fun _ => "HASH") c8env
        (Src.localPath "a.jpg" (some ("X", 1))) c8opts) = false ∧
     queueJobBody (fun _ => "HASH") c8env (Src.localPath "a.jpg" (some ("X", 1))) c8opts =
       queueJobBody (fun _ => "HASH") c8env (Src.localPath "a.jpg" (some ("X", 1))) c8opts) :=
  ⟨rfl, rfl, rfl, statsOnly_no_codec_for_string_src _ _ _ _ _ rfl rfl rfl⟩

/-! ## Claim C6 -/

/-- Claim C6 (against the spec-modelled memory cache, `memory-cache.js`
being absent from the sources): when the queued job fails, the failure
reaches the caller as the rejected outcome, and the failed in-memory
entry is not retained, so a subsequent call with the same signature is
not served the cached failure but re-runs the derivation (its outcome is
the fresh job outcome under the then-current environment). -/
theorem failed_derivation_not_cached (digest : String → String) (env1 env2 : QueueEnv)
    (src : Src) (o : Options) (e : String)
    (huse : o.useCache = true)
    (hkey : (getInMemoryCacheKey src o).isSome)
    (hfail : queueJobBody digest env1 src o = Except.error e) :
    (queueImageModel digest env1 [] src o).1 = Except.error e ∧
    (queueImageModel digest env2 (queueImageModel digest env1 [] src o).2 src o).1 =
      queueJobBody digest env2 src o := by
  obtain ⟨k, hk⟩ := Option.isSome_iff_exists.1 hkey
  have h1 : queueImageModel digest env1 [] src o = (Except.error e, []) := by
    simp [queueImageModel, huse, hk, memCacheGet, hfail]
  refine ⟨by rw [h1], ?_⟩
  rw [h1]
  cases hq : queueJobBody digest env2 src o with
  | ok r => simp [queueImageModel, huse, hk, memCacheGet, hq]
  | error e2 => simp [queueImageModel, huse, hk, memCacheGet, hq]

/-- A local png source with `formats: ["auto"]`: the derivation fails when
the codec metadata probe reports no format, and succeeds when it does. -/
def c6src : Src := Src.localPath "a.png" (some ("PNGDATA", 7))

def c6opts : Options := { formats := ["auto"] }

def c6renv : ResizeEnv :=
  { existsOnDiskAt := fun _ => false, diskSizeAt := fun _ => 0,
    sourceContents := some "PNGDATA", brotli := fun s => s.length,
    hookResult := fun _ => none, codecData := fun _ => "E",
    codecSize := fun _ => 1 }

/-- A probe environment whose sharp metadata lacks the native format, so
`formats: ["auto"]` cannot resolve and the job fails. -/
def c6env1 : QueueEnv :=
  { localProbe := fun _ => {}, sharpMetadata := { width := 4, height := 4, format := none },
    resizeEnv := c6renv, fetch := Except.ok () }

/-- The same request later: the probe now reports png and the job
succeeds. -/
def c6env2 : QueueEnv :=
  { localProbe := fun _ => {}, sharpMetadata := { width := 4, height := 4, format := some "png" },
    resizeEnv := c6renv, fetch := Except.ok () }

/-- Witness for claim C6 on a concrete failing-then-retried derivation. -/
theorem failed_derivation_not_cached_witness :
    c6opts.useCache = true ∧
    (getInMemoryCacheKey c6src c6opts).isSome = true ∧
    queueJobBody (fun _ => "HASH") c6env1 c6src c6opts =
      Except.error "When using statsSync or statsByDimensionsSync, formats: [null | auto] to use the native image format is not supported." ∧
    ((queueImageModel (fun _ => "HASH") c6env1 [] c6src c6opts).1 =
      Except.error "When using statsSync or statsByDimensionsSync, formats: [null | auto] to use the native image format is not supported." ∧
     (queueImageModel (fun _ => "HASH") c6env2
        (queueImageModel (fun _ => "HASH") c6env1 [] c6src c6opts).2 c6src c6opts).1 =
       queueJobBody (fun _ => "HASH") c6env2 c6src c6opts) :=
  ⟨rfl, by decide, by decide,
    failed_derivation_not_cached _ _ _ _ _ _ rfl (by decide) (by decide)⟩

end EImg

namespace EImg

/-! ## Claim C10 -/

/-- The module defaults (`urlFormat: null`). -/
def c10opts1 : Options := {}

/-- The same options with a `urlFormat` function supplied — the two
requests differ only in that function-valued option field. -/
def c10opts2 : Options := { c10opts1 with urlFormat := some (fun _ _ _ _ => "custom") }

/-- Claim C10, as stated, is false: two requests that differ only in the
function-valued `urlFormat` field do not always share a signature — the
default is `null`, which `JSON.stringify` serializes (`"urlFormat":null`),
while a function value is dropped, so the keys differ and the second
call is not served from the cache. -/
theorem cacheKey_null_vs_function_cex :
    getInMemoryCacheKey (Src.buffer "B") c10opts1 ≠
      getInMemoryCacheKey (Src.buffer "B") c10opts2 := by
  decide

lemma queueImageModel_cache_hit (digest : String → String) (env : QueueEnv)
    (cache : MemCache) (src : Src) (o : Options) (k : List (String × String))
    (r : Bool × Plan)
    (huse : o.useCache = true)
    (hk : getInMemoryCacheKey src o = some k)
    (hc : memCacheGet cache k = some r) :
    (queueImageModel digest env cache src o).1 = Except.ok r := by
  simp [queueImageModel, huse, hk, hc]

/-- Claim C10 (amended): when the four function-capable option fields are
actually function-valued in both requests (`urlFormat`, `filenameFormat`
and `sharpHook` present in both, `formatHooks` holding any hook set) and
all remaining fields agree, the serialized in-memory signatures are
identical — `JSON.stringify` drops every function value — so with
caching enabled the second call is served the first call's settled
result and its own hooks are never applied (the outcome is the first
job's, whatever the second call's hooks and environment). -/
theorem cacheKey_drops_function_fields (digest : String → String)
    (env1 env2 : QueueEnv) (src : Src) (o1 : Options)
    (u2 : Option (Option String → String → Int → String → String))
    (f2 : Option (String → String → Int → String → String))
    (s2 : Option Unit) (fh2 : List String)
    (hu1 : o1.urlFormat.isSome) (hu2 : u2.isSome)
    (hf1 : o1.filenameFormat.isSome) (hf2 : f2.isSome)
    (hs1 : o1.sharpHook.isSome) (hs2 : s2.isSome)
    (huse : o1.useCache = true)
    (hkey : (getInMemoryCacheKey src o1).isSome)
    (hrun : ∃ r, queueJobBody digest env1 src o1 = Except.ok r) :
    getInMemoryCacheKey src
        { o1 with urlFormat := u2, filenameFormat := f2, sharpHook := s2, formatHooks := fh2 } =
      getInMemoryCacheKey src o1 ∧
    (queueImageModel digest env1 [] src o1).1 = queueJobBody digest env1 src o1 ∧
    (queueImageModel digest env2 (queueImageModel digest env1 [] src o1).2 src
        { o1 with urlFormat := u2, filenameFormat := f2, sharpHook := s2,
                  formatHooks := fh2 }).1 =
      queueJobBody digest env1 src o1 := by
  obtain ⟨uf1, huf1⟩ := Option.isSome_iff_exists.1 hu1
  obtain ⟨uf2, huf2⟩ := Option.isSome_iff_exists.1 hu2
  obtain ⟨ff1, hff1⟩ := Option.isSome_iff_exists.1 hf1
  obtain ⟨ff2, hff2⟩ := Option.isSome_iff_exists.1 hf2
  obtain ⟨sh1, hsh1⟩ := Option.isSome_iff_exists.1 hs1
  obtain ⟨sh2, hsh2⟩ := Option.isSome_iff_exists.1 hs2
  obtain ⟨k, hk⟩ := Option.isSome_iff_exists.1 hkey
  obtain ⟨r, hr⟩ := hrun
  have hkeq : getInMemoryCacheKey src
      { o1 with urlFormat := u2, filenameFormat := f2, sharpHook := s2, formatHooks := fh2 } =
      getInMemoryCacheKey src o1 := by
    cases src <;>
      simp [getInMemoryCacheKey, serializedOptionEntries, functionFieldEntry,
        huf1, huf2, hff1, hff2, hsh1, hsh2]
  have h1 : queueImageModel digest env1 [] src o1 = (Except.ok r, [(k, r)]) := by
    simp [queueImageModel, huse, hk, memCacheGet, memCacheAdd, hr]
  refine ⟨hkeq, by rw [h1, hr], ?_⟩
  rw [h1, hr]
  exact queueImageModel_cache_hit digest env2 [(k, r)] src _ k r huse
    (by rw [hkeq, hk]) (by simp [memCacheGet, List.lookup])

/-- A concrete options record in which all hook slots hold functions. -/
def c10wopts : Options :=
  { formats := ["jpeg"],
    urlFormat := some (fun _ _ _ _ => "url-one"),
    filenameFormat := some (fun _ _ _ _ => "name-one"),
    sharpHook := some () }

def c10wrenv : ResizeEnv :=
  { existsOnDiskAt := fun _ => false, diskSizeAt := fun _ => 0,
    sourceContents := some "BYTES", brotli := fun s => s.length,
    hookResult := fun _ => none, codecData := fun _ => "E",
    codecSize := fun _ => 1 }

def c10wenv : QueueEnv :=
  { localProbe := fun _ => {},
    sharpMetadata := { width := 4, height := 4, format := some "jpeg" },
    resizeEnv := c10wrenv, fetch := Except.ok () }

/-- Witness for the amended claim C10: a second call whose `urlFormat`,
`filenameFormat`, `sharpHook` and `formatHooks` differ (all functions)
shares the signature and is served the first call's result. -/
theorem cacheKey_drops_function_fields_witness :
    c10wopts.urlFormat.isSome = true ∧
    (some (fun _ _ _ _ => "url-two") :
      Option (Option String → String → Int → String → String)).isSome = true ∧
    c10wopts.filenameFormat.isSome = true ∧
    (some (fun _ _ _ _ => "name-two") :
      Option (String → String → Int → String → String)).isSome = true ∧
    c10wopts.sharpHook.isSome = true ∧
    (some () : Option Unit).isSome = true ∧
    c10wopts.useCache = true ∧
    (getInMemoryCacheKey (Src.buffer "BYTES") c10wopts).isSome = true ∧
    (∃ r, queueJobBody (fun _ => "HASH") c10wenv (Src.buffer "BYTES") c10wopts =
      Except.ok r) ∧
    (getInMemoryCacheKey (Src.buffer "BYTES")
        { c10wopts with urlFormat := some (fun _ _ _ _ => "url-two"),
                        filenameFormat := some (fun _ _ _ _ => "name-two"),
                        sharpHook := some (), formatHooks := ["svg", "webp"] } =
      getInMemoryCacheKey (Src.buffer "BYTES") c10wopts ∧
    (queueImageModel (fun _ => "HASH") c10wenv [] (Src.buffer "BYTES") c10wopts).1 =
      queueJobBody (fun _ => "HASH") c10wenv (Src.buffer "BYTES") c10wopts ∧
    (queueImageModel (fun _ => "HASH") c10wenv
        (queueImageModel (fun _ => "HASH") c10wenv [] (Src.buffer "BYTES") c10wopts).2
        (Src.buffer "BYTES")
        { c10wopts with urlFormat := some (fun _ _ _ _ => "url-two"),
                        filenameFormat := some (fun _ _ _ _ => "name-two"),
                        sharpHook := some (), formatHooks := ["svg", "webp"] }).1 =
      queueJobBody (fun _ => "HASH") c10wenv (Src.buffer "BYTES") c10wopts) :=
  ⟨rfl, rfl, rfl, rfl, rfl, rfl, rfl, by decide, ⟨_, rfl⟩,
    cacheKey_drops_function_fields _ _ _ _ _ _ _ _ _
      rfl rfl rfl rfl rfl rfl rfl (by decide) ⟨_, rfl⟩⟩

end EImg
